import Mathlib

/-!
Shallow embedding of `main.py` of the `manifest_updater` repository, together
with theorems settling the spec claims about it.

The Python source is line-oriented: strings are modelled as Lean `String`
(a wrapper around `List Char`), and all character-level operations
(slicing, `str.strip`, `str.rstrip`, substring search, the concrete regular
expressions) are implemented explicitly over `List Char`, mirroring the
semantics of the Python standard library on the ASCII inputs the program
manipulates.
-/

namespace ManifestUpdater

/-- Python whitespace class `\s` (and the default class of `str.strip`,
`str.rstrip`), restricted to ASCII: space, tab, newline, carriage return,
vertical tab, form feed. -/
def pyIsSpace (c : Char) : Bool :=
  c = ' ' || c = '\t' || c = '\n' || c = '\r' || c = '\x0b' || c = '\x0c'

/-- Python `str.rstrip()`: remove trailing whitespace characters. -/
def pyRstrip (s : String) : String :=
  String.mk ((s.data.reverse.dropWhile pyIsSpace).reverse)

/-- Python `str.strip()`: remove leading and trailing whitespace characters. -/
def pyStrip (s : String) : String :=
  String.mk (((s.data.dropWhile pyIsSpace).reverse.dropWhile pyIsSpace).reverse)

/-- Substring occurrence test on character lists: `needle` occurs
contiguously somewhere in the haystack. -/
def listHasSubstr (needle : List Char) : List Char → Bool
  | [] => needle.isEmpty
  | c :: rest => needle.isPrefixOf (c :: rest) || listHasSubstr needle rest

/-- Python `pat in s` / `re.search` for a literal (metacharacter-free)
pattern `pat`. -/
def strContains (s pat : String) : Bool :=
  listHasSubstr pat.data s.data

/-- Python `str.startswith`. -/
def strStartsWith (s pat : String) : Bool :=
  pat.data.isPrefixOf s.data

/-- Python `str.endswith`. -/
def strEndsWith (s pat : String) : Bool :=
  pat.data.isSuffixOf s.data

/-- Python string slicing `s[n:]` (character-based). -/
def strDropChars (s : String) (n : Nat) : String :=
  String.mk (s.data.drop n)

/-! Constants from `main.py`. -/

/-- `SKIP_IF = 'skip-if = '` -/
def SKIP_IF : String := "skip-if = "

/-- `WPT_IF = 'if '` -/
def WPT_IF : String := "if "

/-- `WPT_PREFS = 'prefs:'` -/
def WPT_PREFS : String := "prefs:"

/-- `WPT_MANIFEST_SUBCATEGORIES = [r'expected:', r'disabled:', r'fuzzy:']` -/
def WPT_MANIFEST_SUBCATEGORIES : List String := ["expected:", "disabled:", "fuzzy:"]

/-- `ANDROID_VERSION.match(token)`: the compiled pattern is
`[(]?android_version == \x2717\x27[)]?`, and `re.match` anchors at the start of
the token only.  A match exists exactly when the token starts with the
literal core, optionally preceded by a single opening parenthesis (the
trailing `[)]?` is optional and `match` does not require the end of the
string, so it never prevents a match). -/
def android_version_match (token : String) : Bool :=
  strStartsWith token "android_version == \x2717\x27" ||
  strStartsWith token "(android_version == \x2717\x27"

/-- Worker for `re.split(r"\s\|\|\s", line)`: scan left to right for the
leftmost occurrence of one whitespace character, two pipes, one whitespace
character; split there and continue after the separator (non-overlapping
occurrences), accumulating the current piece in reverse. -/
def splitOrSepAux : List Char → List Char → List (List Char)
  | [], acc => [acc.reverse]
  | c1 :: c2 :: c3 :: c4 :: rest2, acc =>
    if pyIsSpace c1 && c2 = '|' && c3 = '|' && pyIsSpace c4 then
      acc.reverse :: splitOrSepAux rest2 []
    else
      splitOrSepAux (c2 :: c3 :: c4 :: rest2) (c1 :: acc)
  | c1 :: rest, acc => splitOrSepAux rest (c1 :: acc)

/-- `re.split(TOKEN_OR_SEPARATOR, line)` with
`TOKEN_OR_SEPARATOR = r"\s\|\|\s"`. -/
def splitOrSep (s : String) : List String :=
  (splitOrSepAux s.data []).map String.mk

/-- `process_manifest_line(line)` from `main.py`: strip the `SKIP_IF`
directive, split the rest on the logical-OR separator, drop the clauses
matched by `ANDROID_VERSION`, and rebuild the line (or return `None` when
nothing survives). -/
def process_manifest_line (line : String) : Option String :=
  let rest := strDropChars line SKIP_IF.length
  let tokens := splitOrSep rest
  let surviving := tokens.filter (fun token => !(android_version_match token))
  if !surviving.isEmpty then
    if surviving.length > 1 then
      some (SKIP_IF ++ String.intercalate " || " surviving)
    else
      some (SKIP_IF ++ String.join surviving)
  else
    none

/-- The per-line emission of the rewrite loop inside `process_manifest`:
a line starting with `SKIP_IF` is passed (right-stripped) through
`process_manifest_line` and written back with a newline when the result is
truthy; any other line is written back right-stripped with a newline.
`none` means the line is dropped from the output. -/
def process_manifest_emit (line : String) : Option String :=
  if strStartsWith line SKIP_IF = true then
    match process_manifest_line (pyRstrip line) with
    | some output => if output = "" then none else some (output ++ "\n")
    | none => none
  else
    some (pyRstrip line ++ "\n")

/-- File iteration (`for line in manifest_file` / `readlines()`): split the
content after each newline character, keeping the terminators; a final
piece without a terminator is kept if non-empty. -/
def splitLinesKeepAux : List Char → List Char → List String
  | [], acc => if acc.isEmpty then [] else [String.mk acc.reverse]
  | c :: rest, acc =>
    if c = '\n' then
      String.mk (acc.reverse ++ ['\n']) :: splitLinesKeepAux rest []
    else
      splitLinesKeepAux rest (c :: acc)

/-- Lines of a file content, with line terminators kept. -/
def pyReadLines (s : String) : List String :=
  splitLinesKeepAux s.data []

/-- `os.path.join(a, b)` for relative components. -/
def os_path_join2 (a b : String) : String := a ++ "/" ++ b

/-- `os.path.join(a, b, c)` for relative components. -/
def os_path_join3 (a b c : String) : String := a ++ "/" ++ b ++ "/" ++ c

/-- The file system, modelled as an association list from paths to file
contents. -/
abbrev FS := List (String × String)

/-- `open(p).read()`: `none` models the exception raised when no file
exists at the path. -/
def fsRead (fs : FS) (p : String) : Option String :=
  List.lookup p fs

/-- Writing content `c` at path `p` (also the net effect of renaming onto
`p`). -/
def fsWrite (fs : FS) (p c : String) : FS :=
  (p, c) :: fs.filter (fun kv => !(kv.1 == p))

/-- `os.remove(p)`. -/
def fsRemove (fs : FS) (p : String) : FS :=
  fs.filter (fun kv => !(kv.1 == p))

/-- `process_manifest(root, file_name)` from `main.py`, as a state
transformer on the modelled file system.  The `FileInput(..., inplace=True,
backup='.bak')` block renames the original to `path + '.bak'` and writes the
rewritten lines to `path`; the function then re-reads `path` and attempts to
read `os.path.join(root, file_name, '.bak')` (note: a path *component*
named `.bak` under the original file), removing that path when the two
reads are equal.  An `Except.error` result models the exception raised by a
failing `open`, with the file system as it stands at that moment. -/
def process_manifest (fs : FS) (root file_name : String) : Except String Unit × FS :=
  let path := os_path_join2 root file_name
  match fsRead fs path with
  | none => (Except.error "FileNotFoundError", fs)
  | some original =>
    let fs1 := fsWrite fs (path ++ ".bak") original
    let new_content := String.join ((pyReadLines original).filterMap process_manifest_emit)
    let fs2 := fsWrite fs1 path new_content
    match fsRead fs2 path with
    | none => (Except.error "FileNotFoundError", fs2)
    | some new_file =>
      match fsRead fs2 (os_path_join3 root file_name ".bak") with
      | none => (Except.error "NotADirectoryError", fs2)
      | some original_file =>
        if new_file = original_file then
          (Except.ok (), fsRemove fs2 (os_path_join3 root file_name ".bak"))
        else
          (Except.ok (), fs2)

/-- `line_is_clean_wpt_substatement(line)` from `remove_dangling_statements`:
for each category label the compiled pattern is the label followed by `\n`
followed by an *optional* whitespace character (`(\s)?`), searched anywhere
in the line.  The optional group never decides whether a match exists, so a
match exists exactly when the label immediately followed by a newline
occurs as a substring of the line. -/
def line_is_clean_wpt_substatement (line : String) : Bool :=
  (WPT_MANIFEST_SUBCATEGORIES.map (fun pat => pat ++ "\n")).any
    (fun expression => strContains line expression)

/-- `line_is_if_statement(line)`: `re.search(WPT_IF, line)` for the literal
pattern `if `. -/
def line_is_if_statement (line : String) : Bool :=
  strContains line WPT_IF

/-- `line_is_test_statement(line)`:
`line.strip().startswith('[') and line.strip().endswith(']')`. -/
def line_is_test_statement (line : String) : Bool :=
  strStartsWith (pyStrip line) "[" && strEndsWith (pyStrip line) "]"

/-- The loop of `remove_dangling_statements`, carried out with explicit
state: `previous_line` (initially `None`) and the output built so far.
When the previous line is truthy (non-empty) and a clean sub-statement:
a test-statement current line pops the previous output line and appends a
blank line in its place; a clean sub-statement current line pops the
previous output line; anything else leaves the output alone.  The current
line is then always appended and becomes the previous line. -/
def removeDanglingAux : Option String → List String → List String → List String
  | _, updated, [] => updated
  | previous_line, updated, line :: rest =>
    let updated2 :=
      match previous_line with
      | none => updated
      | some p =>
        if p ≠ "" ∧ line_is_clean_wpt_substatement p = true then
          if line_is_test_statement line = true then
            updated.dropLast ++ ["\n"]
          else if line_is_clean_wpt_substatement line = true then
            updated.dropLast
          else
            updated
        else
          updated
    removeDanglingAux (some line) (updated2 ++ [line]) rest

/-- `remove_dangling_statements(manifest)` from `main.py`. -/
def remove_dangling_statements (manifest : List String) : List String :=
  removeDanglingAux none [] manifest

/-- An uppercase ASCII letter, the character class `[A-Z]`. -/
def isUpperAZ (c : Char) : Bool :=
  'A' ≤ c && c ≤ 'Z'

/-- `[A-Z]{3,}` can match at the start of the character list: at least
three uppercase letters follow. -/
def threeUpper : List Char → Bool
  | a :: b :: c :: _ => isUpperAZ a && isUpperAZ b && isUpperAZ c
  | _ => false

/-- `\s[A-Z]{3,}` can match at the start of the character list. -/
def catchallTail : List Char → Bool
  | [] => false
  | c :: rest => pyIsSpace c && threeUpper rest

/-- Search worker for `re.search(pattern + r'\s[A-Z]{3,}', line)` with a
literal `pattern`: some position of the haystack starts with the pattern
followed by one whitespace character and at least three uppercase
letters. -/
def searchCatchallAux (patC : List Char) : List Char → Bool
  | [] => false
  | c :: rest =>
    (patC.isPrefixOf (c :: rest) && catchallTail ((c :: rest).drop patC.length)) ||
    searchCatchallAux patC rest

/-- `re.search(pattern + r'\s[A-Z]{3,}', line)` returns a match. -/
def searchCatchall (pattern : String) (line : String) : Bool :=
  searchCatchallAux pattern.data line.data

/-- `check_if_empty_manifest(manifest)` from `main.py`.  Note the third
condition as written in the source: `no_catchall` is `all(...)` over the
raw search results of every pattern against every line (the comprehension
has no `is None`), so it is true exactly when *every* line is matched by *every*
catch-all pattern. -/
def check_if_empty_manifest (manifest : List String) : Bool :=
  let no_statements := manifest.all (fun line => !(strContains (pyStrip line) WPT_IF))
  let no_prefs := manifest.all (fun line => !(strContains (pyStrip line) WPT_PREFS))
  let no_catchall := WPT_MANIFEST_SUBCATEGORIES.all
    (fun pattern => manifest.all (fun line => searchCatchall pattern line))
  no_statements && no_prefs && no_catchall

/-- `check_one_newline_at_end(manifest)` from `main.py`.  `manifest[-1]`
and `manifest[-2]` raise `IndexError` when the list has fewer than two
elements; `none` models that exception. -/
def check_one_newline_at_end (manifest : List String) : Option (List String) :=
  match manifest.getLast? with
  | none => none
  | some last_line =>
    match manifest.dropLast.getLast? with
    | none => none
    | some second_last_line =>
      if last_line = "\n" ∧ second_last_line = "\n" then
        some manifest.dropLast
      else if last_line = "\n" ∧ second_last_line ≠ "\n" then
        some manifest
      else
        some (manifest ++ ["\n"])

/-- The regex filter of `process_web_platform_manifests`: keep the lines on
which the user-supplied expression finds no match.  The compiled expression
is modelled as the predicate `userMatch`. -/
def dialectB_filter (userMatch : String → Bool) (manifest : List String) : List String :=
  manifest.filter (fun line => !(userMatch line))

/-- The outcome of Dialect B processing of one manifest: rewrite the file
with the given lines, or delete it. -/
inductive WptOutcome
  | rewrite (lines : List String)
  | delete
deriving DecidableEq

/-- `process_web_platform_manifests(root, file_name, regex)` from
`main.py`, with the file content already read into `manifest_contents` and
the decision (rewrite with which lines, or delete) returned instead of
performed.  `none` models the `IndexError` escaping from
`check_one_newline_at_end`. -/
def process_web_platform_manifests (userMatch : String → Bool)
    (manifest_contents : List String) : Option WptOutcome :=
  let updated1 := dialectB_filter userMatch manifest_contents
  let updated2 := remove_dangling_statements updated1
  match check_one_newline_at_end updated2 with
  | none => none
  | some updated3 =>
    if check_if_empty_manifest updated3 then
      some WptOutcome.delete
    else
      some (WptOutcome.rewrite updated3)

/-- The surviving clauses of a Dialect A conditional line, in the words of
the spec: strip the directive, split on the separator, remove the clauses
matching the deprecated-version pattern at their start. -/
def surviving_clauses (line : String) : List String :=
  (splitOrSep (strDropChars line SKIP_IF.length)).filter
    (fun token => !(android_version_match token))

/-! Small evaluated facts about the classifiers, shared by the proofs
below. -/

theorem clean_empty_false : line_is_clean_wpt_substatement "" = false := by decide

theorem clean_nl_false : line_is_clean_wpt_substatement "\n" = false := by decide

theorem test_nl_false : line_is_test_statement "\n" = false := by decide

/-- Claim C1 (code bug): a manifest containing only a comment line and a
blank line is *not* classified empty by `check_if_empty_manifest` — the
`no_catchall` conjunct of the source has no `is None` and demands that
every line match every catch-all pattern, which a comment line does not —
so `process_web_platform_manifests` rewrites the file instead of deleting
it, against the stated emptiness contract. -/
theorem claim_C1_comments_only_rewritten_not_deleted :
    check_if_empty_manifest ["# comment\n", "\n"] = false ∧
    process_web_platform_manifests (fun _ => false) ["# comment\n", "\n"] =
      some (WptOutcome.rewrite ["# comment\n", "\n"]) := by
  constructor
  · decide
  · decide

/-- Claim C3 (code bug): on a file whose rewrite is byte-identical to the
original, `process_manifest` raises while trying to read
`os.path.join(root, file_name, '.bak')` — a path component slip for
`file_name + '.bak'` — and the backup file created next to the original is
never removed, against the stated round-trip contract. -/
theorem claim_C3_backup_never_removed :
    (process_manifest [("d/browser.ini", "foo\n")] "d" "browser.ini").1 =
      Except.error "NotADirectoryError" ∧
    fsRead (process_manifest [("d/browser.ini", "foo\n")] "d" "browser.ini").2
      "d/browser.ini" = some "foo\n" ∧
    fsRead (process_manifest [("d/browser.ini", "foo\n")] "d" "browser.ini").2
      "d/browser.ini.bak" = some "foo\n" := by
  refine ⟨rfl, rfl, rfl⟩

/-- Claim C4 (code bug): `check_one_newline_at_end` indexes `manifest[-1]`
and `manifest[-2]` unconditionally, so a manifest reaching it with fewer
than two lines raises `IndexError` (modelled by `none`) instead of being
treated as a no-op or skip; in the pipeline this happens whenever the
user regex filters a one-line manifest down to nothing. -/
theorem claim_C4_short_manifest_crashes :
    check_one_newline_at_end ([] : List String) = none ∧
    check_one_newline_at_end ["x\n"] = none ∧
    process_web_platform_manifests (fun _ => true) ["x\n"] = none := by
  refine ⟨by decide, by decide, by decide⟩

/-- Claim C5: for a line carrying the `skip-if = ` directive,
`process_manifest_line` strips the directive, splits on the
whitespace-pipes-whitespace separator, removes the clauses matching the
deprecated-version pattern at their start, and returns `none` when no
clause survives, the directive plus the lone clause when one survives, and
the directive plus the clauses joined by exactly one space, two pipes and
one space when two or more survive. -/
theorem claim_C5_clause_filter_and_join (line : String)
    (_h : strStartsWith line SKIP_IF = true) :
    process_manifest_line line =
      if (surviving_clauses line).length = 0 then
        none
      else if (surviving_clauses line).length = 1 then
        some (SKIP_IF ++ String.join (surviving_clauses line))
      else
        some (SKIP_IF ++ String.intercalate " || " (surviving_clauses line)) := by
  unfold process_manifest_line surviving_clauses
  dsimp only
  generalize (splitOrSep (strDropChars line SKIP_IF.length)).filter
      (fun token => !(android_version_match token)) = sv
  rcases sv with _ | ⟨c, cs⟩
  · simp
  · rcases cs with _ | ⟨c2, cs2⟩
    · simp [List.isEmpty]
    · simp [List.isEmpty]

theorem claim_C5_witness :
    process_manifest_line "skip-if = alpha || beta" =
      if (surviving_clauses "skip-if = alpha || beta").length = 0 then
        none
      else if (surviving_clauses "skip-if = alpha || beta").length = 1 then
        some (SKIP_IF ++ String.join (surviving_clauses "skip-if = alpha || beta"))
      else
        some (SKIP_IF ++
          String.intercalate " || " (surviving_clauses "skip-if = alpha || beta")) :=
  claim_C5_clause_filter_and_join "skip-if = alpha || beta" (by decide)

/-- Claim C6 (counterexample): on the spec example line the code does not
produce `skip-if =  || debug`. -/
theorem claim_C6_spec_example_wrong :
    process_manifest_line "skip-if = (android_version == \x2717\x27) || debug" ≠
      some "skip-if =  || debug" := by
  decide

/-- Claim C6 (amended): on the example line exactly one clause survives, so
the single-clause join rule applies and the output is `skip-if = debug`
with no separator. -/
theorem claim_C6_actual_output :
    process_manifest_line "skip-if = (android_version == \x2717\x27) || debug" =
      some "skip-if = debug" := by
  decide

/-- Claim C7 (counterexample): a non-directive line with trailing
whitespace is not emitted byte-for-byte by the Dialect A rewrite loop. -/
theorem claim_C7_not_byte_identical :
    strStartsWith "foo \n" SKIP_IF = false ∧
    process_manifest_emit "foo \n" ≠ some "foo \n" := by
  refine ⟨by decide, by decide⟩

/-- Claim C7 (amended): every input line that does not start with the
directive is emitted as the line with its trailing whitespace stripped
followed by a single newline — hence byte-identically only when the line
consists of its stripped content followed by exactly one terminating
newline. -/
theorem claim_C7_rstrip_emission (line : String)
    (h : strStartsWith line SKIP_IF = false) :
    process_manifest_emit line = some (pyRstrip line ++ "\n") := by
  unfold process_manifest_emit
  rw [if_neg]
  simp [h]

theorem claim_C7_rstrip_emission_witness :
    process_manifest_emit "foo bar \n" = some (pyRstrip "foo bar \n" ++ "\n") :=
  claim_C7_rstrip_emission "foo bar \n" (by decide)

/-- Claim C8: one step of the cascade when the previous line is a
(non-empty) clean sub-statement: a test-statement current line pops the
marker from the output and puts a blank line in its place, a clean
sub-statement current line pops the marker, any other current line leaves
the marker in place; in every case the current line itself is appended. -/
theorem claim_C8_cascade_step (p : String) (updated : List String)
    (line : String) (rest : List String)
    (h1 : p ≠ "") (h2 : line_is_clean_wpt_substatement p = true) :
    removeDanglingAux (some p) updated (line :: rest) =
      if line_is_test_statement line = true then
        removeDanglingAux (some line) ((updated.dropLast ++ ["\n"]) ++ [line]) rest
      else if line_is_clean_wpt_substatement line = true then
        removeDanglingAux (some line) (updated.dropLast ++ [line]) rest
      else
        removeDanglingAux (some line) (updated ++ [line]) rest := by
  show removeDanglingAux (some line)
      ((if p ≠ "" ∧ line_is_clean_wpt_substatement p = true then
          if line_is_test_statement line = true then updated.dropLast ++ ["\n"]
          else if line_is_clean_wpt_substatement line = true then updated.dropLast
          else updated
        else updated) ++ [line]) rest = _
  rw [if_pos ⟨h1, h2⟩]
  split
  · rfl
  · split
    · rfl
    · rfl

theorem claim_C8_cascade_step_witness :
    removeDanglingAux (some "expected:\n") ["expected:\n"] ("[a]\n" :: []) =
      if line_is_test_statement "[a]\n" = true then
        removeDanglingAux (some "[a]\n")
          (((["expected:\n"] : List String).dropLast ++ ["\n"]) ++ ["[a]\n"]) []
      else if line_is_clean_wpt_substatement "[a]\n" = true then
        removeDanglingAux (some "[a]\n")
          ((["expected:\n"] : List String).dropLast ++ ["[a]\n"]) []
      else
        removeDanglingAux (some "[a]\n") (["expected:\n"] ++ ["[a]\n"]) [] :=
  claim_C8_cascade_step "expected:\n" ["expected:\n"] "[a]\n" [] (by decide) (by decide)

/-- Claim C10: on a manifest of at least two lines the trailing-newline
normalizer succeeds and its result ends with the bare newline line. -/
theorem claim_C10_ends_with_newline (manifest : List String)
    (h : 2 ≤ manifest.length) :
    ∃ r, check_one_newline_at_end manifest = some r ∧ r.getLast? = some "\n" := by
  have hne : manifest ≠ [] := by
    intro he
    rw [he] at h
    exact absurd h (by decide)
  have hdne : manifest.dropLast ≠ [] := by
    intro he
    have hlen := congrArg List.length he
    simp [List.length_dropLast] at hlen
    omega
  have hlast : manifest.getLast? = some (manifest.getLast hne) :=
    List.getLast?_eq_getLast manifest hne
  have hdlast : manifest.dropLast.getLast? = some (manifest.dropLast.getLast hdne) :=
    List.getLast?_eq_getLast _ hdne
  unfold check_one_newline_at_end
  rw [hlast, hdlast]
  dsimp only
  by_cases h1 : manifest.getLast hne = "\n"
  · by_cases h2 : manifest.dropLast.getLast hdne = "\n"
    · refine ⟨manifest.dropLast, ?_, ?_⟩
      · rw [if_pos ⟨h1, h2⟩]
      · rw [hdlast, h2]
    · refine ⟨manifest, ?_, ?_⟩
      · rw [if_neg (fun hc => h2 hc.2), if_pos ⟨h1, h2⟩]
      · rw [hlast, h1]
  · refine ⟨manifest ++ ["\n"], ?_, ?_⟩
    · rw [if_neg (fun hc => h1 hc.1), if_neg (fun hc => h1 hc.1)]
    · rw [List.getLast?_concat]

theorem claim_C10_witness :
    2 ≤ (["a\n", "b"] : List String).length ∧
    ∃ r, check_one_newline_at_end ["a\n", "b"] = some r ∧ r.getLast? = some "\n" :=
  ⟨by decide, claim_C10_ends_with_newline ["a\n", "b"] (by decide)⟩

/-- Characterization of the substring search: `needle` occurs in
`haystack` exactly when the haystack decomposes around it. -/
theorem listHasSubstr_iff (needle haystack : List Char) :
    listHasSubstr needle haystack = true ↔ ∃ a b, haystack = a ++ needle ++ b := by
  induction haystack with
  | nil =>
    simp only [listHasSubstr, List.isEmpty_iff]
    constructor
    · intro h
      exact ⟨[], [], by simp [h]⟩
    · rintro ⟨a, b, hab⟩
      have hlen := congrArg List.length hab
      simp only [List.length_nil, List.length_append] at hlen
      exact List.length_eq_zero.mp (by omega)
  | cons c rest ih =>
    rw [listHasSubstr, Bool.or_eq_true, ih]
    constructor
    · rintro (hpf | ⟨a, b, hab⟩)
      · rcases List.isPrefixOf_iff_prefix.mp hpf with ⟨t, ht⟩
        exact ⟨[], t, by simp [ht]⟩
      · exact ⟨c :: a, b, by simp [hab]⟩
    · rintro ⟨a, b, hab⟩
      cases a with
      | nil =>
        left
        exact List.isPrefixOf_iff_prefix.mpr ⟨b, by simpa using hab.symm⟩
      | cons a0 as =>
        right
        rw [List.cons_append, List.cons_append] at hab
        injection hab with _ hr
        exact ⟨as, b, hr⟩

/-- Claim C9 (counterexample): the source classifier is a raw substring
search for the label plus newline, so a line with text before the label is
still classified clean, and a label with trailing whitespace before its
terminator is not. -/
theorem claim_C9_counterexample :
    line_is_clean_wpt_substatement "x expected:\n" = true ∧
    (∀ pat ∈ WPT_MANIFEST_SUBCATEGORIES, strStartsWith "x expected:\n" pat = false) ∧
    line_is_clean_wpt_substatement "expected: \n" = false := by
  refine ⟨by decide, by decide, by decide⟩

/-- Claim C9 (amended): the clean-sub-statement classifier returns true
for a line exactly when the line contains, anywhere in it, one of the
fixed category labels immediately followed by a newline character; text
before the label is allowed, and whitespace between the label and the
terminator prevents recognition. -/
theorem claim_C9_classifier_characterization (line : String) :
    line_is_clean_wpt_substatement line = true ↔
      ∃ pat ∈ WPT_MANIFEST_SUBCATEGORIES, ∃ a b : List Char,
        line.data = a ++ (pat.data ++ ['\n']) ++ b := by
  unfold line_is_clean_wpt_substatement strContains
  rw [List.any_eq_true]
  constructor
  · rintro ⟨e, he, hc⟩
    rcases List.mem_map.mp he with ⟨pat, hpat, rfl⟩
    rcases (listHasSubstr_iff _ _).mp hc with ⟨a, b, hab⟩
    exact ⟨pat, hpat, a, b, hab⟩
  · rintro ⟨pat, hpat, a, b, hab⟩
    refine ⟨pat ++ "\n", List.mem_map.mpr ⟨pat, hpat, rfl⟩, ?_⟩
    exact (listHasSubstr_iff _ _).mpr ⟨a, b, hab⟩

/-- The adjacency the cascade actually guarantees in its output: a clean
sub-statement line is never immediately followed by a test-statement line
or by another clean sub-statement line. -/
def adjacency_ok (a b : String) : Prop :=
  ¬(line_is_clean_wpt_substatement a = true ∧
    (line_is_test_statement b = true ∨ line_is_clean_wpt_substatement b = true))

theorem adjacency_ok_of_left (a b : String)
    (h : line_is_clean_wpt_substatement a = false) : adjacency_ok a b := by
  intro hc
  rw [hc.1] at h
  exact Bool.noConfusion h

theorem adjacency_ok_of_right (a b : String)
    (ht : line_is_test_statement b = false)
    (hcl : line_is_clean_wpt_substatement b = false) : adjacency_ok a b := by
  rintro ⟨_, hb | hb⟩
  · rw [hb] at ht
    exact Bool.noConfusion ht
  · rw [hb] at hcl
    exact Bool.noConfusion hcl

theorem adjacency_ok_nl_right (a : String) : adjacency_ok a "\n" :=
  adjacency_ok_of_right a "\n" test_nl_false clean_nl_false

theorem clean_ne_empty (p : String)
    (h : line_is_clean_wpt_substatement p = true) : p ≠ "" := by
  intro he
  rw [he, clean_empty_false] at h
  exact Bool.noConfusion h

/-- Invariant of the cascade loop: if the output built so far has no bad
adjacency and ends with the tracked previous line, running the rest of the
input preserves the absence of bad adjacencies. -/
theorem removeDanglingAux_chain (rest : List String) :
    ∀ (updated : List String) (prev : Option String),
      (prev = none → updated = []) →
      (∀ p, prev = some p → updated.getLast? = some p) →
      List.Chain' adjacency_ok updated →
      List.Chain' adjacency_ok (removeDanglingAux prev updated rest) := by
  induction rest with
  | nil =>
    intro updated prev _ _ hchain
    simpa [removeDanglingAux] using hchain
  | cons line rest ih =>
    intro updated prev hnone hlast hchain
    cases prev with
    | none =>
      have hupd : updated = [] := hnone rfl
      subst hupd
      simp only [removeDanglingAux]
      apply ih
      · intro h
        exact Option.noConfusion h
      · intro q hq
        injection hq with hq
        subst hq
        rfl
      · exact List.chain'_singleton line
    | some p =>
      have hl : updated.getLast? = some p := hlast p rfl
      have hu_ne : updated ≠ [] := by
        intro he
        rw [he] at hl
        exact Option.noConfusion hl
      have hgl : updated.getLast hu_ne = p := by
        have hq := List.getLast?_eq_getLast updated hu_ne
        rw [hq] at hl
        injection hl
      have hdecomp : updated.dropLast ++ [p] = updated := by
        have hd := List.dropLast_append_getLast hu_ne
        rw [hgl] at hd
        exact hd
      have hchain2 : List.Chain' adjacency_ok (updated.dropLast ++ [p]) := by
        rw [hdecomp]
        exact hchain
      obtain ⟨hchain_dl, _, hlink⟩ := List.chain'_append.mp hchain2
      simp only [removeDanglingAux]
      by_cases hcond : p ≠ "" ∧ line_is_clean_wpt_substatement p = true
      · rw [if_pos hcond]
        by_cases htest : line_is_test_statement line = true
        · rw [if_pos htest]
          apply ih
          · intro h
            exact Option.noConfusion h
          · intro q hq
            injection hq with hq
            subst hq
            exact List.getLast?_concat _
          · apply List.Chain'.append
            · apply List.Chain'.append hchain_dl (List.chain'_singleton "\n")
              intro x hx y hy
              simp only [List.head?_cons, Option.mem_def, Option.some.injEq] at hy
              subst hy
              exact adjacency_ok_nl_right x
            · exact List.chain'_singleton line
            · intro x hx y hy
              simp only [List.head?_cons, Option.mem_def, Option.some.injEq] at hy
              subst hy
              rw [Option.mem_def, List.getLast?_concat, Option.some.injEq] at hx
              subst hx
              exact adjacency_ok_of_left "\n" line clean_nl_false
        · rw [if_neg htest]
          by_cases hclean2 : line_is_clean_wpt_substatement line = true
          · rw [if_pos hclean2]
            apply ih
            · intro h
              exact Option.noConfusion h
            · intro q hq
              injection hq with hq
              subst hq
              exact List.getLast?_concat _
            · apply List.Chain'.append hchain_dl (List.chain'_singleton line)
              intro x hx y hy
              simp only [List.head?_cons, Option.mem_def, Option.some.injEq] at hy
              subst hy
              have hx_not_clean : line_is_clean_wpt_substatement x = false := by
                by_contra hxc
                have hxc2 : line_is_clean_wpt_substatement x = true := by
                  simpa using hxc
                exact (hlink x hx p (by simp)) ⟨hxc2, Or.inr hcond.2⟩
              exact adjacency_ok_of_left x line hx_not_clean
          · rw [if_neg hclean2]
            apply ih
            · intro h
              exact Option.noConfusion h
            · intro q hq
              injection hq with hq
              subst hq
              exact List.getLast?_concat _
            · apply List.Chain'.append hchain (List.chain'_singleton line)
              intro x hx y hy
              simp only [List.head?_cons, Option.mem_def, Option.some.injEq] at hy
              subst hy
              rw [Option.mem_def, hl, Option.some.injEq] at hx
              subst hx
              exact adjacency_ok_of_right p line (by simpa using htest)
                (by simpa using hclean2)
      · rw [if_neg hcond]
        apply ih
        · intro h
          exact Option.noConfusion h
        · intro q hq
          injection hq with hq
          subst hq
          exact List.getLast?_concat _
        · apply List.Chain'.append hchain (List.chain'_singleton line)
          intro x hx y hy
          simp only [List.head?_cons, Option.mem_def, Option.some.injEq] at hy
          subst hy
          rw [Option.mem_def, hl, Option.some.injEq] at hx
          subst hx
          have hp_not_clean : line_is_clean_wpt_substatement p = false := by
            by_contra hxc
            have hxc2 : line_is_clean_wpt_substatement p = true := by
              simpa using hxc
            exact hcond ⟨clean_ne_empty p hxc2, hxc2⟩
          exact adjacency_ok_of_left p line hp_not_clean

/-- Claim C2 (counterexample): after the Dialect B filter and cascade, the
two-line manifest of a bare marker followed by a blank line survives
unchanged, so a sub-statement marker *is* immediately followed by a line
that is neither a test-name line nor a conditional line. -/
theorem claim_C2_counterexample :
    remove_dangling_statements (dialectB_filter (fun _ => false) ["expected:\n", "\n"]) =
      ["expected:\n", "\n"] ∧
    line_is_clean_wpt_substatement "expected:\n" = true ∧
    line_is_test_statement "\n" = false ∧
    line_is_if_statement "\n" = false := by
  refine ⟨rfl, by decide, by decide, by decide⟩

/-- Claim C2 (amended): after Dialect B processing (regex filter followed
by the cascade), no clean sub-statement marker line in the output is
immediately followed by a bracketed test-name line or by another clean
sub-statement line; a marker followed by a blank line, or sitting at the
end of the output, may survive. -/
theorem claim_C2_no_marker_before_test_or_marker (userMatch : String → Bool)
    (manifest : List String) :
    List.Chain' adjacency_ok
      (remove_dangling_statements (dialectB_filter userMatch manifest)) := by
  unfold remove_dangling_statements
  apply removeDanglingAux_chain
  · intro _
    rfl
  · intro q hq
    exact Option.noConfusion hq
  · exact List.chain'_nil

end ManifestUpdater
